import Mathlib

/-!
Verification of the provider-adapter core of the llm-philosophy repository:
cost computation (`src/costs.py`), the Anthropic adapter
(`providers/anthropic.py`), the OpenAI adapter (`providers/openai.py`) and
the Grok SSE parser (`src/providers/grok.py`).

Python values of type `dict[str, Any]` are embedded as structures whose
fields are `Option`-typed: `none` models a key that is missing from the
dict, or whose value fails the `isinstance` check that guards every read
in the source.  Python `float` arithmetic is embedded over `ℚ`.
-/

set_option maxHeartbeats 1000000
set_option linter.unnecessarySeqFocus false

namespace Costs

/-- `TokenBreakdown` from `src/costs.py`: each field is `None`able. -/
structure TokenBreakdown where
  input_tokens : Option Int
  reasoning_tokens : Option Int
  output_tokens : Option Int
deriving Repr, DecidableEq

/-- `CostBreakdown` from `src/costs.py`; float costs embedded as `ℚ`. -/
structure CostBreakdown where
  input_cost : ℚ
  reasoning_cost : ℚ
  output_cost : ℚ
  total_cost : ℚ
deriving Repr, DecidableEq

/-- The price-schedule dict as read by `compute_cost_breakdown`: the
`"input"`/`"output"` entries, `none` when the key is missing or the value
is not numeric (fails `isinstance(x, (int, float))`). -/
structure PriceSchedule where
  input : Option ℚ
  output : Option ℚ
deriving Repr, DecidableEq

/-- `compute_cost_breakdown` from `src/costs.py`. -/
def compute_cost_breakdown (tokens : TokenBreakdown) (price_schedule : PriceSchedule)
    (output_includes_reasoning : Bool) : Option CostBreakdown :=
  match price_schedule.input, price_schedule.output with
  | some input_rate, some output_rate =>
    match tokens.input_tokens, tokens.output_tokens with
    | some input_tokens, some otoks =>
      let reasoning_tokens : Int := tokens.reasoning_tokens.getD 0
      let output_tokens : Int :=
        if output_includes_reasoning then max (otoks - reasoning_tokens) 0 else otoks
      let input_cost : ℚ := input_tokens * (input_rate / 1000000)
      let reasoning_cost : ℚ := reasoning_tokens * (output_rate / 1000000)
      let output_cost : ℚ := output_tokens * (output_rate / 1000000)
      some ⟨input_cost, reasoning_cost, output_cost, input_cost + reasoning_cost + output_cost⟩
    | _, _ => none
  | _, _ => none

end Costs

namespace Anthropic

/-- One entry of a streamed or reconstructed `content` array
(`providers/anthropic.py`).  The source keeps these as dicts with keys
`type`, `text`, `thinking`, `signature` and `partial_json`; the `pjson`
field stands for the `partial_json` accumulator. -/
structure AContentBlock where
  btype : Option String := none
  text : Option String := none
  thinking : Option String := none
  signature : Option String := none
  pjson : Option String := none
deriving Repr, DecidableEq

/-- The `usage` dict of an Anthropic response; each field is the value of
the corresponding key when it is an `int`. -/
structure AnthropicUsage where
  input_tokens : Option Int := none
  cache_creation_input_tokens : Option Int := none
  cache_read_input_tokens : Option Int := none
  output_tokens : Option Int := none
deriving Repr, DecidableEq

/-- A (possibly reconstructed) Anthropic response payload: the fields of
the message dict that the adapter reads or writes.  `stop_reason` and
`stop_sequence` are doubly optional: the outer `Option` models key
presence, the inner one the nullable value. -/
structure AnthropicPayload where
  content : Option (List AContentBlock) := none
  usage : Option AnthropicUsage := none
  stop_reason : Option (Option String) := none
  stop_sequence : Option (Option String) := none
deriving Repr, DecidableEq

/-- `extract_usage_breakdown` from `providers/anthropic.py`. -/
def extract_usage_breakdown (payload : AnthropicPayload) : Option Costs.TokenBreakdown :=
  match payload.usage with
  | none => none
  | some usage =>
    let input_total : Option Int :=
      match usage.input_tokens with
      | none => none
      | some input_tokens =>
        some (input_tokens + usage.cache_creation_input_tokens.getD 0 +
              usage.cache_read_input_tokens.getD 0)
    some ⟨input_total, none, usage.output_tokens⟩

/-- The loop body of `_extract_text_blocks`: walk the `content` list,
keep the `text` of blocks whose `type` is `"text"`. -/
def textBlockChunks : List AContentBlock → List String
  | [] => []
  | block :: rest =>
    if block.btype = some "text" then
      match block.text with
      | some text => text :: textBlockChunks rest
      | none => textBlockChunks rest
    else textBlockChunks rest

/-- `_extract_text_blocks` from `providers/anthropic.py`. -/
def extract_text_blocks (payload : AnthropicPayload) : List String :=
  match payload.content with
  | none => []
  | some content => textBlockChunks content

/-- `extract_output_text` from `providers/anthropic.py`:
`"".join(_extract_text_blocks(payload))`. -/
def extract_output_text (payload : AnthropicPayload) : String :=
  String.join (extract_text_blocks payload)

/-- An entry of `MODEL_DEFAULTS` in `providers/anthropic.py`. -/
structure ModelDefaults where
  max_output_tokens : Option Int := none
  thinking_budget_tokens : Option Int := none
deriving Repr, DecidableEq

/-- `MODEL_DEFAULTS` from `providers/anthropic.py`. -/
def MODEL_DEFAULTS : List (String × ModelDefaults) :=
  [("claude-opus-4-5-20251101", ⟨some 64000, some 20000⟩)]

/-- The `thinking` configuration dict passed to `build_messages_request`:
`type` and `budget_tokens` (the latter `none` when missing or not an
`int`). -/
structure ThinkingConfig where
  ttype : Option String := none
  budget_tokens : Option Int := none
deriving Repr, DecidableEq

/-- A `{"type": "text", "text": ...}` system block (`_system_blocks`). -/
structure SystemBlock where
  stype : String
  text : String
deriving Repr, DecidableEq

/-- A `{"role": ..., "content": ...}` chat message. -/
structure ChatMessage where
  role : String
  content : String
deriving Repr, DecidableEq

/-- The request payload assembled by `build_messages_request`; optional
fields are present exactly when the source adds the corresponding key. -/
structure AnthropicRequest where
  model : String
  max_tokens : Int
  system : List SystemBlock
  messages : List ChatMessage
  temperature : Option ℚ := none
  top_p : Option ℚ := none
  top_k : Option Int := none
  thinking : Option ThinkingConfig := none
  stream : Option Bool := none
deriving Repr, DecidableEq

/-- `MODEL_DEFAULTS.get(model, {}).get("max_output_tokens")`. -/
def defaultMaxOutputTokens (model : String) : Option Int :=
  match MODEL_DEFAULTS.lookup model with
  | some defaults => defaults.max_output_tokens
  | none => none

/-- `_system_blocks` from `providers/anthropic.py`. -/
def system_blocks (system_prompt : String) : List SystemBlock :=
  [⟨"text", system_prompt⟩]

/-- `build_messages_request` from `providers/anthropic.py`; the `raise`
statements become `Except.error` carrying the exception message. -/
def build_messages_request (system_prompt user_prompt model : String)
    (max_output_tokens : Option Int) (temperature : Option ℚ := none)
    (top_p : Option ℚ := none) (top_k : Option Int := none)
    (thinking : Option ThinkingConfig := none) (stream : Option Bool := none) :
    Except String AnthropicRequest :=
  let resolved : Option Int :=
    match max_output_tokens with
    | some m => some m
    | none => defaultMaxOutputTokens model
  match resolved with
  | none => .error "max_output_tokens must be set for Anthropic requests"
  | some max_tokens =>
    if thinking.isSome && (temperature.isSome || top_k.isSome) then
      .error "Anthropic thinking is incompatible with temperature or top_k"
    else
      let payload : AnthropicRequest :=
        { model := model, max_tokens := max_tokens,
          system := system_blocks system_prompt,
          messages := [⟨"user", user_prompt⟩],
          temperature := temperature, top_p := top_p, top_k := top_k,
          thinking := thinking, stream := stream }
      match thinking with
      | none => .ok payload
      | some th =>
        if th.ttype ≠ some "enabled" then
          .error "Anthropic thinking.type must be 'enabled' when provided"
        else
          match th.budget_tokens with
          | none => .error "Anthropic thinking.budget_tokens must be an integer"
          | some budget_tokens =>
            if budget_tokens ≤ 0 then
              .error "Anthropic thinking.budget_tokens must be positive"
            else if budget_tokens ≥ max_tokens then
              .error "Anthropic thinking.budget_tokens must be less than max_tokens"
            else .ok payload

end Anthropic

namespace OpenAI

/-- An entry of `MODEL_DEFAULTS` in `providers/openai.py`. -/
structure ModelDefaults where
  max_output_tokens : Option Int := none
deriving Repr, DecidableEq

/-- `MODEL_DEFAULTS` from `providers/openai.py`. -/
def MODEL_DEFAULTS : List (String × ModelDefaults) :=
  [("o3-2025-04-16", ⟨some 100000⟩),
   ("gpt-4o-2024-05-13", ⟨some 64000⟩),
   ("gpt-5.2-2025-12-11", ⟨some 128000⟩)]

/-- A `{"type": "input_text", "text": ...}` item (`_content_item`). -/
structure ContentItem where
  ctype : String
  text : String
deriving Repr, DecidableEq

/-- A `{"role": ..., "content": [...]}` input message. -/
structure InputMessage where
  role : String
  content : List ContentItem
deriving Repr, DecidableEq

/-- The `reasoning` configuration dict, passed through opaquely. -/
structure ReasoningConfig where
  effort : Option String := none
  summary : Option String := none
deriving Repr, DecidableEq

/-- The request payload assembled by `build_response_request`; optional
fields are present exactly when the source adds the corresponding key.
The fields the adapter never inspects (`tools`, `tool_choice`, `seed`,
`metadata`, `stream_options`) are carried as opaque strings / pairs. -/
structure OpenAIRequest where
  model : String
  input : List InputMessage
  max_output_tokens : Int
  temperature : Option ℚ := none
  top_p : Option ℚ := none
  reasoning : Option ReasoningConfig := none
  tools : Option (List String) := none
  tool_choice : Option String := none
  seed : Option Int := none
  metadata : Option (List (String × String)) := none
  stream : Option Bool := none
  stream_options : Option (List (String × String)) := none
deriving Repr, DecidableEq

/-- `MODEL_DEFAULTS.get(model, {}).get("max_output_tokens")`. -/
def defaultMaxOutputTokens (model : String) : Option Int :=
  match MODEL_DEFAULTS.lookup model with
  | some defaults => defaults.max_output_tokens
  | none => none

/-- `_content_item` from `providers/openai.py`. -/
def content_item (text : String) : ContentItem :=
  ⟨"input_text", text⟩

/-- `build_response_request` from `providers/openai.py`.  `tools` and
`metadata` are added to the payload only when truthy (non-empty). -/
def build_response_request (system_prompt user_prompt model : String)
    (max_output_tokens : Option Int) (temperature : Option ℚ := none)
    (top_p : Option ℚ := none) (reasoning : Option ReasoningConfig := none)
    (tools : List String := []) (tool_choice : Option String := none)
    (seed : Option Int := none) (metadata : List (String × String) := [])
    (stream : Option Bool := none)
    (stream_options : Option (List (String × String)) := none) :
    Except String OpenAIRequest :=
  let resolved : Option Int :=
    match max_output_tokens with
    | some m => some m
    | none => defaultMaxOutputTokens model
  match resolved with
  | none => .error "max_output_tokens must be set (model defaults are not yet configured)"
  | some max_out =>
    .ok { model := model,
          input := [⟨"system", [content_item system_prompt]⟩,
                    ⟨"user", [content_item user_prompt]⟩],
          max_output_tokens := max_out,
          temperature := temperature, top_p := top_p, reasoning := reasoning,
          tools := if tools = [] then none else some tools,
          tool_choice := tool_choice, seed := seed,
          metadata := if metadata = [] then none else some metadata,
          stream := stream, stream_options := stream_options }

/-- A `{"type": ..., "text": ...}` part of a message output item. -/
structure OutputPart where
  ptype : Option String := none
  text : Option String := none
deriving Repr, DecidableEq

/-- An entry of a response's `output` array. -/
structure OutputItem where
  itype : Option String := none
  content : Option (List OutputPart) := none
deriving Repr, DecidableEq

/-- A canonical (non-streaming) response object: the fields read by the
non-stream path of `extract_output_text`.  A snapshot carried by a
`response.completed` event has this shape; it carries no `stream` key, so
feeding it back through `extract_output_text` takes exactly this path. -/
structure ResponseCore where
  output_text : Option String := none
  output : Option (List OutputItem) := none
deriving Repr, DecidableEq

/-- A parsed OpenAI Responses-API stream event: the keys read by
`_extract_output_text_from_stream`. -/
structure OAIEvent where
  etype : Option String := none
  delta : Option String := none
  text : Option String := none
  response : Option ResponseCore := none
deriving Repr, DecidableEq

/-- The payload handed to `extract_output_text`: either a captured stream
(`stream is True` plus an `events` list, with `payload.get("events", [])`
modelled by the `[]` default) or a plain response. -/
structure OAIPayload where
  stream : Option Bool := none
  events : List OAIEvent := []
  output_text : Option String := none
  output : Option (List OutputItem) := none
deriving Repr, DecidableEq

/-- Inner loop of `extract_output_text`: the `output_text`-typed parts of
one message's `content` list. -/
def partChunks : List OutputPart → List String
  | [] => []
  | part :: rest =>
    if part.ptype = some "output_text" then
      match part.text with
      | some text => text :: partChunks rest
      | none => partChunks rest
    else partChunks rest

/-- Outer loop of `extract_output_text`: chunks of all `message`-typed
output items, in document order (`item.get("content", [])` modelled by
`getD []`). -/
def outputChunks : List OutputItem → List String
  | [] => []
  | item :: rest =>
    if item.itype = some "message" then
      partChunks (item.content.getD []) ++ outputChunks rest
    else outputChunks rest

/-- The non-stream path of `extract_output_text` (`providers/openai.py`
lines 335-360): prefer a string `output_text`, else join the collected
chunks with `"\n"`, else return `""`. -/
def extractOutputTextCore (r : ResponseCore) : String :=
  match r.output_text with
  | some output_text => output_text
  | none =>
    let chunks := outputChunks (r.output.getD [])
    if chunks = [] then "" else String.intercalate "\n" chunks

/-- The loop state of `_extract_output_text_from_stream`. -/
structure StreamTextState where
  chunks : List String := []
  response_payload : Option ResponseCore := none
deriving Repr, DecidableEq

/-- One iteration of the `_extract_output_text_from_stream` event loop. -/
def streamTextStep (st : StreamTextState) (event : OAIEvent) : StreamTextState :=
  if event.etype = some "response.output_text.delta" then
    match event.delta with
    | some delta => { st with chunks := st.chunks ++ [delta] }
    | none => st
  else if event.etype ∈ [some "response.output_text.done", some "response.text.done"] then
    if st.chunks = [] then
      match event.text with
      | some text => { st with chunks := st.chunks ++ [text] }
      | none => st
    else st
  else if event.etype = some "response.completed" then
    match event.response with
    | some response => { st with response_payload := some response }
    | none => st
  else st

/-- `_extract_output_text_from_stream` from `providers/openai.py`.  The
source's `if response_payload:` dict-truthiness test treats an empty
snapshot dict as absent and returns `""`; `extractOutputTextCore` of the
all-`none` snapshot is also `""`, so the collapse is value-preserving. -/
def extract_output_text_from_stream (events : List OAIEvent) : String :=
  let st := events.foldl streamTextStep {}
  if st.chunks ≠ [] then String.join st.chunks
  else
    match st.response_payload with
    | some response_payload => extractOutputTextCore response_payload
    | none => ""

/-- `extract_output_text` from `providers/openai.py`. -/
def extract_output_text (payload : OAIPayload) : String :=
  if payload.stream = some true then
    extract_output_text_from_stream payload.events
  else
    extractOutputTextCore ⟨payload.output_text, payload.output⟩

/-- `sorted(set(done_texts) | set(delta_chunks))` over the two summary
dicts, embedded as association lists: the distinct keys in ascending
order. -/
def sortedSummaryIndices (done_texts : List (Int × String))
    (delta_chunks : List (Int × List String)) : List Int :=
  List.insertionSort (· ≤ ·)
    ((done_texts.map Prod.fst ++ delta_chunks.map Prod.fst).dedup)

/-- The delta-fallback half of the `_coalesce_reasoning_summary_parts`
loop body: `"".join(deltas)` when the accumulated list is non-empty. -/
def coalesceDeltas (delta_chunks : List (Int × List String)) (index : Int) : List String :=
  match delta_chunks.lookup index with
  | some deltas => if deltas ≠ [] then [String.join deltas] else []
  | none => []

/-- The body of the `_coalesce_reasoning_summary_parts` loop: the parts
appended for one index (`done_texts.get(index)` guarded by
`isinstance(done_text, str) and done_text`). -/
def coalescePart (done_texts : List (Int × String))
    (delta_chunks : List (Int × List String)) (index : Int) : List String :=
  match done_texts.lookup index with
  | some done_text =>
    if done_text ≠ "" then [done_text] else coalesceDeltas delta_chunks index
  | none => coalesceDeltas delta_chunks index

/-- `_coalesce_reasoning_summary_parts` from `providers/openai.py`. -/
def coalesce_reasoning_summary_parts (done_texts : List (Int × String))
    (delta_chunks : List (Int × List String)) : List String :=
  (sortedSummaryIndices done_texts delta_chunks).foldl
    (fun parts index => parts ++ coalescePart done_texts delta_chunks index) []

/-- The part `_coalesce_reasoning_summary_parts` emits for one index,
written as an `Option`: a non-empty done text, else the joined non-empty
delta list, else nothing. -/
def coalescedPartForIndex (done_texts : List (Int × String))
    (delta_chunks : List (Int × List String)) (index : Int) : Option String :=
  match done_texts.lookup index with
  | some done_text =>
    if done_text ≠ "" then some done_text
    else
      match delta_chunks.lookup index with
      | some deltas => if deltas ≠ [] then some (String.join deltas) else none
      | none => none
  | none =>
    match delta_chunks.lookup index with
    | some deltas => if deltas ≠ [] then some (String.join deltas) else none
    | none => none

/-- The text carried by each `response.output_text.delta` event, in
arrival order. -/
def outputTextDeltas (events : List OAIEvent) : List String :=
  events.filterMap fun event =>
    if event.etype = some "response.output_text.delta" then event.delta else none

end OpenAI

/-- The result of `json.loads` on an SSE data string, as the stream
parsers case on it: a JSON object (decoded into the provider's event-data
record `α`) or some other JSON value, carried with its printed
representation (the `{parsed}` interpolation of the error message). -/
inductive Parsed (α : Type) where
  | obj (data : α)
  | nonObj (rep : String)
deriving Repr, DecidableEq

/-- Python `s.startswith(pre)`. -/
def strStartsWith (s pre : String) : Bool :=
  pre.data.isPrefixOf s.data

/-- Python `s[n:]` for a non-negative `n`. -/
def strDrop (s : String) (n : Nat) : String :=
  ⟨s.data.drop n⟩

/-- Python `s.lstrip()`. -/
def strTrimLeft (s : String) : String :=
  ⟨s.data.dropWhile Char.isWhitespace⟩

/-- Python `s.strip()`. -/
def strTrim (s : String) : String :=
  ⟨((s.data.dropWhile Char.isWhitespace).reverse.dropWhile Char.isWhitespace).reverse⟩

/-- Python-dict assignment `d[k] = v` on an insertion-ordered association
list: replace in place when the key exists, else append. -/
def pySet {β : Type} : List (Int × β) → Int → β → List (Int × β)
  | [], k, v => [(k, v)]
  | (k', v') :: rest, k, v =>
    if k' = k then (k, v) :: rest else (k', v') :: pySet rest k v

/-- Python-dict lookup `d.get(k)` (first match; keys are unique by
construction). -/
def pyGet {β : Type} : List (Int × β) → Int → Option β
  | [], _ => none
  | (k', v') :: rest, k => if k' = k then some v' else pyGet rest k

namespace Anthropic

/-- The `delta` dict of an Anthropic stream event.  The first five fields
are the content-block delta keys read by `_update_content_block` (with
`pjson` standing for `partial_json`); `stop_reason`/`stop_sequence` are
the message-delta keys, doubly optional to model `"stop_reason" in delta`
versus a null value. -/
structure ADelta where
  dtype : Option String := none
  text : Option String := none
  thinking : Option String := none
  signature : Option String := none
  pjson : Option String := none
  stop_reason : Option (Option String) := none
  stop_sequence : Option (Option String) := none
deriving Repr, DecidableEq

/-- The `data` dict of a parsed Anthropic SSE event: the keys read by
`_reconstruct_stream_payload`. -/
structure AEventData where
  dtype : Option String := none
  message : Option AnthropicPayload := none
  index : Option Int := none
  content_block : Option AContentBlock := none
  delta : Option ADelta := none
  usage : Option AnthropicUsage := none
deriving Repr, DecidableEq

/-- A parsed SSE event `{"event": ..., "data": ...}` as yielded by
`_iter_sse_events` (`data := none` models a non-dict data payload). -/
structure AEvent where
  event : Option String := none
  data : Option AEventData := none
deriving Repr, DecidableEq

/-- `event.get("event") or data_payload.get("type")` — the empty string
is falsy. -/
def eventTypeOf (event : Option String) (dtype : Option String) : Option String :=
  match event with
  | some e => if e = "" then dtype else some e
  | none => dtype

/-- `_update_content_block` from `providers/anthropic.py`. -/
def update_content_block (block : AContentBlock) (delta : ADelta) : AContentBlock :=
  if delta.dtype = some "text_delta" then
    match delta.text with
    | some text =>
      { block with text := some (match block.text with
        | some existing => existing ++ text
        | none => text) }
    | none => block
  else if delta.dtype = some "thinking_delta" then
    match delta.thinking with
    | some thinking =>
      { block with thinking := some (match block.thinking with
        | some existing => existing ++ thinking
        | none => thinking) }
    | none => block
  else if delta.dtype = some "signature_delta" then
    match delta.signature with
    | some signature => { block with signature := some signature }
    | none => block
  else if delta.dtype = some "input_json_delta" then
    match delta.pjson with
    | some pj =>
      { block with pjson := some (match block.pjson with
        | some existing => existing ++ pj
        | none => pj) }
    | none => block
  else block

/-- The loop state of `_reconstruct_stream_payload`: the accumulating
top-level payload and the index-keyed content-block dict. -/
structure ReconState where
  response_payload : AnthropicPayload := {}
  content_blocks : List (Int × AContentBlock) := []
deriving Repr, DecidableEq

/-- One iteration of the `_reconstruct_stream_payload` event loop.  The
`content_block_delta` arm fuses `content_blocks.setdefault(index,
{"type": delta.get("type")})` with the in-place mutation performed by
`_update_content_block` on the block it returns. -/
def reconStep (st : ReconState) (event : AEvent) : ReconState :=
  match event.data with
  | none => st
  | some data_payload =>
    let event_type := eventTypeOf event.event data_payload.dtype
    if event_type = some "message_start" then
      match data_payload.message with
      | some message => { st with response_payload := message }
      | none => st
    else if event_type = some "content_block_start" then
      match data_payload.index, data_payload.content_block with
      | some index, some block =>
        { st with content_blocks := pySet st.content_blocks index block }
      | _, _ => st
    else if event_type = some "content_block_delta" then
      match data_payload.index, data_payload.delta with
      | some index, some delta =>
        { st with content_blocks :=
            match pyGet st.content_blocks index with
            | some block => pySet st.content_blocks index (update_content_block block delta)
            | none => st.content_blocks ++
                [(index, update_content_block { btype := delta.dtype } delta)] }
      | _, _ => st
    else if event_type = some "message_delta" then
      let rp := st.response_payload
      let rp := match data_payload.delta with
        | some delta =>
          let rp2 := match delta.stop_reason with
            | some stop_reason => { rp with stop_reason := some stop_reason }
            | none => rp
          match delta.stop_sequence with
          | some stop_sequence => { rp2 with stop_sequence := some stop_sequence }
          | none => rp2
        | none => rp
      let rp := match data_payload.usage with
        | some usage => { rp with usage := some usage }
        | none => rp
      { st with response_payload := rp }
    else st

/-- `sorted(content_blocks.keys())`. -/
def sortedBlockIndices (blocks : List (Int × AContentBlock)) : List Int :=
  List.insertionSort (· ≤ ·) (blocks.map Prod.fst)

/-- `_reconstruct_stream_payload` from `providers/anthropic.py`. -/
def reconstruct_stream_payload (events : List AEvent) : AnthropicPayload :=
  let st := events.foldl reconStep {}
  if st.content_blocks = [] then st.response_payload
  else
    let blocks := (sortedBlockIndices st.content_blocks).map fun index =>
      (pyGet st.content_blocks index).getD {}
    { st.response_payload with content := some blocks }

/-- `_parse_sse_event` from `providers/anthropic.py`; `json.loads` is the
`jsonParse` parameter (`none` models a `json.JSONDecodeError`). -/
def parse_sse_event (jsonParse : String → Option (Parsed AEventData))
    (event_type : Option String) (data_lines : List String) : Except String AEvent :=
  let data := String.intercalate "\n" data_lines
  if data = "[DONE]" then .ok ⟨event_type, some { dtype := some "done" }⟩
  else
    match jsonParse data with
    | none => .error ("Failed to parse Anthropic stream event: " ++ data)
    | some (.nonObj rep) => .error ("Unexpected Anthropic stream event payload: " ++ rep)
    | some (.obj parsed) => .ok ⟨event_type, some parsed⟩

/-- The `_iter_sse_events` line loop from `providers/anthropic.py`, over
the already-decoded lines (each `rstrip`ped of `"\r\n"` as the source
does; `readline` returning `b""` is the end of the list).  A parse
failure aborts the iteration: no further event is produced. -/
def iterSseGo (jsonParse : String → Option (Parsed AEventData)) :
    Option String → List String → List String → Except String (List AEvent)
  | event_type, data_lines, [] =>
    if data_lines ≠ [] then
      match parse_sse_event jsonParse event_type data_lines with
      | .ok e => .ok [e]
      | .error err => .error err
    else .ok []
  | event_type, data_lines, line :: rest =>
    if line = "" then
      if data_lines ≠ [] then
        match parse_sse_event jsonParse event_type data_lines with
        | .ok e =>
          match iterSseGo jsonParse none [] rest with
          | .ok es => .ok (e :: es)
          | .error err => .error err
        | .error err => .error err
      else iterSseGo jsonParse none [] rest
    else if strStartsWith line ":" then iterSseGo jsonParse event_type data_lines rest
    else if strStartsWith line "event:" then
      let et := strTrim (strDrop line "event:".length)
      iterSseGo jsonParse (if et = "" then none else some et) data_lines rest
    else if strStartsWith line "data:" then
      iterSseGo jsonParse event_type
        (data_lines ++ [strTrimLeft (strDrop line "data:".length)]) rest
    else iterSseGo jsonParse event_type data_lines rest

/-- `_iter_sse_events` from `providers/anthropic.py`. -/
def iter_sse_events (jsonParse : String → Option (Parsed AEventData))
    (lines : List String) : Except String (List AEvent) :=
  iterSseGo jsonParse none [] lines

end Anthropic

namespace Grok

/-- `_parse_sse_data` from `src/providers/grok.py`, generic in the shape
of the decoded JSON object (the Grok adapter only threads it through). -/
def parse_sse_data {α : Type} (jsonParse : String → Option (Parsed α))
    (data : String) : Except String α :=
  match jsonParse data with
  | none => .error ("Failed to parse Grok stream event: " ++ data)
  | some (.nonObj rep) => .error ("Unexpected Grok stream event payload: " ++ rep)
  | some (.obj parsed) => .ok parsed

end Grok

namespace Anthropic

/-- The event type the reconstructor dispatches on, `none` when the event
has no dict data payload (such events are skipped). -/
def aEventType (e : AEvent) : Option String :=
  match e.data with
  | none => none
  | some d => eventTypeOf e.event d.dtype

/-- The index of a valid `content_block_start` event (integer index and
dict block present), else `none`. -/
def aStartIndex (e : AEvent) : Option Int :=
  match e.data with
  | none => none
  | some d =>
    if aEventType e = some "content_block_start" then
      match d.index, d.content_block with
      | some index, some _ => some index
      | _, _ => none
    else none

/-- The block carried by a valid `content_block_start` event. -/
def aStartBlock (e : AEvent) : Option AContentBlock :=
  match e.data with
  | none => none
  | some d =>
    if aEventType e = some "content_block_start" then
      match d.index, d.content_block with
      | some _, some block => some block
      | _, _ => none
    else none

/-- The index of a valid `content_block_delta` event (integer index and
dict delta present), else `none`. -/
def aDeltaIndex (e : AEvent) : Option Int :=
  match e.data with
  | none => none
  | some d =>
    if aEventType e = some "content_block_delta" then
      match d.index, d.delta with
      | some index, some _ => some index
      | _, _ => none
    else none

/-- The delta carried by a valid `content_block_delta` event. -/
def aDeltaOf (e : AEvent) : Option ADelta :=
  match e.data with
  | none => none
  | some d =>
    if aEventType e = some "content_block_delta" then
      match d.index, d.delta with
      | some _, some delta => some delta
      | _, _ => none
    else none

/-- The content-block index an event addresses (by starting the block or
delivering a delta to it), if any. -/
def addrIndex (e : AEvent) : Option Int :=
  (aStartIndex e).or (aDeltaIndex e)

/-- Every index addressed by the event stream, in arrival order (with
repetitions). -/
def addressedIndices (events : List AEvent) : List Int :=
  events.filterMap addrIndex

/-- The distinct addressed indices in ascending order. -/
def sortedAddressedIndices (events : List AEvent) : List Int :=
  List.insertionSort (· ≤ ·) (addressedIndices events).dedup

/-- The text payloads of the `text_delta` events addressed to index `i`,
in arrival order. -/
def textDeltasFor (events : List AEvent) (i : Int) : List String :=
  events.filterMap fun e =>
    if aDeltaIndex e = some i then
      match aDeltaOf e with
      | some delta => if delta.dtype = some "text_delta" then delta.text else none
      | none => none
    else none

/-- The thinking payloads of the `thinking_delta` events addressed to
index `i`, in arrival order. -/
def thinkingDeltasFor (events : List AEvent) (i : Int) : List String :=
  events.filterMap fun e =>
    if aDeltaIndex e = some i then
      match aDeltaOf e with
      | some delta => if delta.dtype = some "thinking_delta" then delta.thinking else none
      | none => none
    else none

/-- A text field that carries no content yet: missing or `""`. -/
def blankish : Option String → Bool
  | none => true
  | some s => s = ""

/-- A well-formed `content_block_start`: a valid start event whose block
arrives with no pre-filled text or thinking content. -/
def isCleanStart (e : AEvent) : Bool :=
  match aStartBlock e with
  | some block => blankish block.text && blankish block.thinking
  | none => false

/-- A valid `content_block_delta` event. -/
def isValidDelta (e : AEvent) : Bool :=
  (aDeltaIndex e).isSome

/-- No `content_block_start` arrives for an index that was already
addressed (`seen` accumulates the addressed indices): the protocol's
start-before-deltas discipline. -/
def noStaleStart : List Int → List AEvent → Bool
  | _, [] => true
  | seen, e :: rest =>
    (match aStartIndex e with
     | some i => !(decide (i ∈ seen))
     | none => true) && noStaleStart (seen ++ (addrIndex e).toList) rest

/-- The accumulated text of the block at index `i` (empty when the block
or its text is absent). -/
def textAt (blocks : List (Int × AContentBlock)) (i : Int) : String :=
  match pyGet blocks i with
  | some block => block.text.getD ""
  | none => ""

/-- The accumulated thinking of the block at index `i`. -/
def thinkingAt (blocks : List (Int × AContentBlock)) (i : Int) : String :=
  match pyGet blocks i with
  | some block => block.thinking.getD ""
  | none => ""

/-- The spec's cross-index ordering example: a text delta `"second"` for
index 1 arrives before a text delta `"first"` for index 0. -/
def c1ExampleEvents : List AEvent :=
  [⟨none, some ⟨some "content_block_delta", none, some 1, none,
      some ⟨some "text_delta", some "second", none, none, none, none, none⟩, none⟩⟩,
   ⟨none, some ⟨some "content_block_delta", none, some 0, none,
      some ⟨some "text_delta", some "first", none, none, none, none, none⟩, none⟩⟩]

end Anthropic

/-- C3: `compute_cost_breakdown` prices input at the input rate, reasoning at
the output rate (0 when absent), output at the output rate after subtracting
reasoning (clamped at 0) exactly when `output_includes_reasoning` is true,
and totals the three exactly; the spec's worked example
(input=100, reasoning=40, output=200, rates 2.0/8.0 per million,
`output_includes_reasoning=True`) yields 0.0002 / 0.00032 / 0.00128 and
total 0.0018. -/
theorem compute_cost_breakdown_formulas_and_example :
    (∀ (a o : Int) (r : Option Int) (ri ro : ℚ) (inc : Bool),
      Costs.compute_cost_breakdown ⟨some a, r, some o⟩ ⟨some ri, some ro⟩ inc =
        some ⟨a * ri / 1000000,
              (r.getD 0 : Int) * ro / 1000000,
              ((if inc then max (o - r.getD 0) 0 else o : Int) : ℚ) * ro / 1000000,
              a * ri / 1000000 + (r.getD 0 : Int) * ro / 1000000 +
                ((if inc then max (o - r.getD 0) 0 else o : Int) : ℚ) * ro / 1000000⟩)
    ∧ Costs.compute_cost_breakdown ⟨some 100, some 40, some 200⟩ ⟨some 2, some 8⟩ true =
        some ⟨0.0002, 0.00032, 0.00128, 0.0018⟩ := by
  constructor
  · intro a o r ri ro inc
    cases inc <;> simp [Costs.compute_cost_breakdown, mul_div_assoc]
  · norm_num [Costs.compute_cost_breakdown]

/-- C5: `compute_cost_breakdown` returns `none` (it cannot raise and never
fabricates a partial or zero-filled breakdown) whenever either token figure
or either rate is missing/non-numeric. -/
theorem compute_cost_breakdown_missing_fields_none
    (tokens : Costs.TokenBreakdown) (sched : Costs.PriceSchedule) (inc : Bool)
    (h : tokens.input_tokens = none ∨ tokens.output_tokens = none ∨
         sched.input = none ∨ sched.output = none) :
    Costs.compute_cost_breakdown tokens sched inc = none := by
  obtain ⟨ti, tr, tou⟩ := tokens
  obtain ⟨si, so⟩ := sched
  simp only [Costs.compute_cost_breakdown]
  rcases h with h | h | h | h <;> simp_all <;>
    cases si <;> cases so <;> cases ti <;> cases tou <;> simp_all

/-- Witness for C5 at a concrete input. -/
theorem compute_cost_breakdown_missing_fields_none_witness :
    Costs.compute_cost_breakdown ⟨none, some 40, some 200⟩ ⟨some 2, some 8⟩ true = none :=
  compute_cost_breakdown_missing_fields_none _ _ _ (Or.inl rfl)

/-- C6: with `max_output_tokens` omitted, both request builders fill the
token ceiling from the model-defaults catalog; when the catalog provides no
default, both fail before any payload is built with an error whose message
contains "max_output_tokens must be set". -/
theorem builders_fill_catalog_default_or_fail :
    (∀ (model : String) (m : Int) (sp up : String),
      Anthropic.defaultMaxOutputTokens model = some m →
      ∃ p, Anthropic.build_messages_request sp up model none = .ok p ∧ p.max_tokens = m)
    ∧ (∀ (model sp up : String),
      Anthropic.defaultMaxOutputTokens model = none →
      Anthropic.build_messages_request sp up model none =
        .error ("max_output_tokens must be set" ++ " for Anthropic requests"))
    ∧ (∀ (model : String) (m : Int) (sp up : String),
      OpenAI.defaultMaxOutputTokens model = some m →
      ∃ p, OpenAI.build_response_request sp up model none = .ok p ∧ p.max_output_tokens = m)
    ∧ (∀ (model sp up : String),
      OpenAI.defaultMaxOutputTokens model = none →
      OpenAI.build_response_request sp up model none =
        .error ("max_output_tokens must be set" ++ " (model defaults are not yet configured)")) := by
  refine ⟨fun model m sp up h => ?_, fun model sp up h => ?_,
          fun model m sp up h => ?_, fun model sp up h => ?_⟩
  · exact ⟨{ model := model, max_tokens := m, system := Anthropic.system_blocks sp,
             messages := [⟨"user", up⟩] },
           by simp [Anthropic.build_messages_request, h], rfl⟩
  · simp [Anthropic.build_messages_request, h]
  · exact ⟨{ model := model,
             input := [⟨"system", [OpenAI.content_item sp]⟩, ⟨"user", [OpenAI.content_item up]⟩],
             max_output_tokens := m },
           by simp [OpenAI.build_response_request, h], rfl⟩
  · simp [OpenAI.build_response_request, h]

/-- Witness for C6 at the catalog models of both providers and at a model
absent from both catalogs. -/
theorem builders_fill_catalog_default_or_fail_witness :
    (∃ p, Anthropic.build_messages_request "s" "u" "claude-opus-4-5-20251101" none = .ok p ∧
          p.max_tokens = 64000)
    ∧ (∃ p, OpenAI.build_response_request "s" "u" "o3-2025-04-16" none = .ok p ∧
          p.max_output_tokens = 100000)
    ∧ Anthropic.build_messages_request "s" "u" "unknown-model" none =
        .error ("max_output_tokens must be set" ++ " for Anthropic requests")
    ∧ OpenAI.build_response_request "s" "u" "unknown-model" none =
        .error ("max_output_tokens must be set" ++ " (model defaults are not yet configured)") :=
  ⟨builders_fill_catalog_default_or_fail.1 _ 64000 "s" "u" rfl,
   builders_fill_catalog_default_or_fail.2.2.1 _ 100000 "s" "u" rfl,
   builders_fill_catalog_default_or_fail.2.1 _ "s" "u" rfl,
   builders_fill_catalog_default_or_fail.2.2.2 _ "s" "u" rfl⟩

/-- C7: whenever the Anthropic builder is given a thinking block together
with a non-`None` temperature or top_k (and the token ceiling resolves, so
that the earlier missing-max check does not fire first), it returns the
validation error naming the conflicting fields; no request payload is
constructed and nothing reaches the transport. -/
theorem anthropic_thinking_conflict_pre_flight
    (sp up model : String) (maxTok : Option Int) (temperature : Option ℚ)
    (top_p : Option ℚ) (top_k : Option Int) (th : Anthropic.ThinkingConfig)
    (stream : Option Bool)
    (hmax : maxTok.isSome ∨ (Anthropic.defaultMaxOutputTokens model).isSome)
    (hconf : temperature.isSome ∨ top_k.isSome) :
    Anthropic.build_messages_request sp up model maxTok temperature top_p top_k
        (some th) stream =
      .error "Anthropic thinking is incompatible with temperature or top_k" := by
  rcases maxTok with _ | m
  · rcases hmax with h | h
    · simp at h
    · obtain ⟨d, hd⟩ := Option.isSome_iff_exists.mp h
      rcases hconf with h2 | h2 <;>
        obtain ⟨x, hx⟩ := Option.isSome_iff_exists.mp h2 <;>
        simp [Anthropic.build_messages_request, hd, hx]
  · rcases hconf with h2 | h2 <;>
      obtain ⟨x, hx⟩ := Option.isSome_iff_exists.mp h2 <;>
      simp [Anthropic.build_messages_request, hx]

/-- Witness for C7 at a concrete conflicting call. -/
theorem anthropic_thinking_conflict_pre_flight_witness :
    Anthropic.build_messages_request "s" "u" "claude-opus-4-5-20251101" (some 1000)
        (some 1) none none (some ⟨some "enabled", some 100⟩) none =
      .error "Anthropic thinking is incompatible with temperature or top_k" :=
  anthropic_thinking_conflict_pre_flight "s" "u" _ _ _ _ _ _ _
    (Or.inl rfl) (Or.inl rfl)

/-- C10: when the Anthropic usage dict carries an integer `input_tokens`,
`extract_usage_breakdown` reports `input_tokens` plus the cache-creation
and cache-read figures (each added exactly when present as an integer) in
the input bucket, and never reports reasoning tokens. -/
theorem anthropic_usage_folds_cache_tokens
    (payload : Anthropic.AnthropicPayload) (usage : Anthropic.AnthropicUsage) (i : Int)
    (hu : payload.usage = some usage) (hi : usage.input_tokens = some i) :
    Anthropic.extract_usage_breakdown payload =
      some ⟨some (i + usage.cache_creation_input_tokens.getD 0 +
                  usage.cache_read_input_tokens.getD 0),
            none, usage.output_tokens⟩ := by
  simp [Anthropic.extract_usage_breakdown, hu, hi]

/-- Witness for C10 at a concrete payload with both cache figures. -/
theorem anthropic_usage_folds_cache_tokens_witness :
    Anthropic.extract_usage_breakdown
        { usage := some { input_tokens := some 10, cache_creation_input_tokens := some 3,
                          cache_read_input_tokens := some 4, output_tokens := some 7 } } =
      some ⟨some 17, none, some 7⟩ := by
  have h := anthropic_usage_folds_cache_tokens
    { usage := some { input_tokens := some 10, cache_creation_input_tokens := some 3,
                      cache_read_input_tokens := some 4, output_tokens := some 7 } }
    { input_tokens := some 10, cache_creation_input_tokens := some 3,
      cache_read_input_tokens := some 4, output_tokens := some 7 } 10 rfl rfl
  simpa using h

namespace OpenAI

theorem partChunks_eq_filterMap (parts : List OutputPart) :
    partChunks parts = parts.filterMap fun part =>
      if part.ptype = some "output_text" then part.text else none := by
  induction parts with
  | nil => rfl
  | cons part rest ih =>
    by_cases h : part.ptype = some "output_text"
    · cases hp : part.text <;> simp [partChunks, h, hp, ih, List.filterMap_cons]
    · simp [partChunks, h, ih, List.filterMap_cons]

theorem outputChunks_eq_flatMap (items : List OutputItem) :
    outputChunks items = items.flatMap fun item =>
      if item.itype = some "message" then
        (item.content.getD []).filterMap fun part =>
          if part.ptype = some "output_text" then part.text else none
      else [] := by
  induction items with
  | nil => rfl
  | cons item rest ih =>
    by_cases h : item.itype = some "message" <;>
      simp [outputChunks, h, ih, partChunks_eq_filterMap]

theorem streamTextFold_chunks (events : List OAIEvent) :
    ∀ st : StreamTextState,
      (∀ e ∈ events, e.etype = some "response.output_text.delta" ∨
        e.etype = some "response.completed") →
      (events.foldl streamTextStep st).chunks = st.chunks ++ outputTextDeltas events := by
  induction events with
  | nil => intro st _; simp [outputTextDeltas]
  | cons e rest ih =>
    intro st h
    have he := h e (List.mem_cons_self ..)
    have hrest : ∀ x ∈ rest, x.etype = some "response.output_text.delta" ∨
        x.etype = some "response.completed" :=
      fun x hx => h x (List.mem_cons_of_mem _ hx)
    rcases he with he | he
    · cases hd : e.delta with
      | some d =>
        have hstep : streamTextStep st e = { st with chunks := st.chunks ++ [d] } := by
          simp [streamTextStep, he, hd]
        rw [List.foldl_cons, hstep, ih _ hrest]
        simp [outputTextDeltas, he, hd, List.filterMap_cons]
      | none =>
        have hstep : streamTextStep st e = st := by
          simp [streamTextStep, he, hd]
        rw [List.foldl_cons, hstep, ih _ hrest]
        simp [outputTextDeltas, he, hd, List.filterMap_cons]
    · have hstep : (streamTextStep st e).chunks = st.chunks := by
        cases hr : e.response <;> simp [streamTextStep, he, hr]
      rw [List.foldl_cons, ih _ hrest, hstep]
      simp [outputTextDeltas, he, List.filterMap_cons]

theorem coalescePart_eq_toList (done_texts : List (Int × String))
    (delta_chunks : List (Int × List String)) (index : Int) :
    coalescePart done_texts delta_chunks index =
      (coalescedPartForIndex done_texts delta_chunks index).toList := by
  rcases hl : done_texts.lookup index with _ | t <;>
    rcases hd : delta_chunks.lookup index with _ | ds <;>
    simp [coalescePart, coalescedPartForIndex, coalesceDeltas, hl, hd] <;>
    (try split <;> simp_all) <;>
    (try split <;> simp_all)

theorem foldl_parts_eq_filterMap (done_texts : List (Int × String))
    (delta_chunks : List (Int × List String)) :
    ∀ (l : List Int) (acc : List String),
      l.foldl (fun parts index => parts ++ coalescePart done_texts delta_chunks index) acc =
        acc ++ l.filterMap (coalescedPartForIndex done_texts delta_chunks) := by
  intro l
  induction l with
  | nil => simp
  | cons i rest ih =>
    intro acc
    rw [List.foldl_cons, ih]
    cases hg : coalescedPartForIndex done_texts delta_chunks i <;>
      simp [coalescePart_eq_toList, hg, List.filterMap_cons]

end OpenAI

/-- C2: the claim that the terminal snapshot supersedes accumulated deltas
is false: at a stream whose deltas concatenate to `"partial"` followed by a
`response.completed` snapshot declaring `"PARTIAL (corrected)"`, the code
extracts `"partial"` (while the snapshot alone would have read
`"PARTIAL (corrected)"`). -/
theorem openai_stream_snapshot_claim_false :
    OpenAI.extract_output_text_from_stream
        [⟨some "response.output_text.delta", some "par", none, none⟩,
         ⟨some "response.output_text.delta", some "tial", none, none⟩,
         ⟨some "response.completed", none, none,
          some ⟨some "PARTIAL (corrected)", none⟩⟩] = "partial"
    ∧ OpenAI.extractOutputTextCore ⟨some "PARTIAL (corrected)", none⟩ = "PARTIAL (corrected)"
    ∧ ("partial" : String) ≠ "PARTIAL (corrected)" := by
  exact ⟨by decide, rfl, by decide⟩

/-- C2 (amended): accumulated `response.output_text.delta` text takes
precedence; for any stream of text deltas and `response.completed` events
with at least one delta string, `_extract_output_text_from_stream` returns
the concatenation of the deltas in arrival order and ignores the terminal
snapshot, which is consulted only when no text was accumulated. -/
theorem openai_stream_deltas_take_precedence (events : List OpenAI.OAIEvent)
    (h : ∀ e ∈ events, e.etype = some "response.output_text.delta" ∨
      e.etype = some "response.completed")
    (hne : OpenAI.outputTextDeltas events ≠ []) :
    OpenAI.extract_output_text_from_stream events =
      String.join (OpenAI.outputTextDeltas events) := by
  unfold OpenAI.extract_output_text_from_stream
  have hc := OpenAI.streamTextFold_chunks events {} h
  simp only [hc]
  simp [hne]

/-- Witness for C2's amended theorem at the counterexample stream. -/
theorem openai_stream_deltas_take_precedence_witness :
    OpenAI.extract_output_text_from_stream
        [⟨some "response.output_text.delta", some "par", none, none⟩,
         ⟨some "response.output_text.delta", some "tial", none, none⟩,
         ⟨some "response.completed", none, none,
          some ⟨some "PARTIAL (corrected)", none⟩⟩] = "partial" := by
  have h := openai_stream_deltas_take_precedence
    [⟨some "response.output_text.delta", some "par", none, none⟩,
     ⟨some "response.output_text.delta", some "tial", none, none⟩,
     ⟨some "response.completed", none, none,
      some ⟨some "PARTIAL (corrected)", none⟩⟩] (by decide) (by decide)
  exact h.trans (by decide)

/-- C4: the claim that an explicit "done" text is used whenever one was
received is false: with done text `""` recorded for part 0 and accumulated
deltas `["x"]`, the code emits `["x"]`, not `[""]`; and with done text `""`
and no deltas, the index produces no part at all. -/
theorem coalesce_claim_false_on_empty_done :
    OpenAI.coalesce_reasoning_summary_parts [(0, "")] [(0, ["x"])] = ["x"]
    ∧ (["x"] : List String) ≠ [""]
    ∧ OpenAI.coalesce_reasoning_summary_parts [(0, "")] [] = [] := by
  exact ⟨by decide, by decide, by decide⟩

/-- C4 (amended): `_coalesce_reasoning_summary_parts` emits at most one
part per index, in strictly ascending part-index order over the indices
appearing in either dict, using the "done" text when it is a non-empty
string, falling back to the concatenation of the accumulated deltas when
the done text is missing or empty and the delta list is non-empty, and
emitting nothing for an index with neither. -/
theorem coalesce_reasoning_summary_spec (done_texts : List (Int × String))
    (delta_chunks : List (Int × List String)) :
    OpenAI.coalesce_reasoning_summary_parts done_texts delta_chunks =
      (OpenAI.sortedSummaryIndices done_texts delta_chunks).filterMap
        (OpenAI.coalescedPartForIndex done_texts delta_chunks)
    ∧ (OpenAI.sortedSummaryIndices done_texts delta_chunks).Sorted (· < ·)
    ∧ (∀ i : Int, i ∈ OpenAI.sortedSummaryIndices done_texts delta_chunks ↔
        i ∈ done_texts.map Prod.fst ∨ i ∈ delta_chunks.map Prod.fst) := by
  refine ⟨?_, ?_, fun i => ?_⟩
  · rw [OpenAI.coalesce_reasoning_summary_parts,
      OpenAI.foldl_parts_eq_filterMap done_texts delta_chunks _ []]
    simp
  · have hs : (OpenAI.sortedSummaryIndices done_texts delta_chunks).Sorted (· ≤ ·) :=
      List.sorted_insertionSort _ _
    have hn : (OpenAI.sortedSummaryIndices done_texts delta_chunks).Nodup :=
      (List.perm_insertionSort _ _).nodup_iff.mpr (List.nodup_dedup _)
    exact (hs.and hn).imp fun h => lt_of_le_of_ne h.1 h.2
  · rw [OpenAI.sortedSummaryIndices, (List.perm_insertionSort _ _).mem_iff,
      List.mem_dedup, List.mem_append]

namespace Anthropic

theorem textBlockChunks_eq_filterMap (blocks : List AContentBlock) :
    textBlockChunks blocks = blocks.filterMap fun block =>
      if block.btype = some "text" then block.text else none := by
  induction blocks with
  | nil => rfl
  | cons block rest ih =>
    by_cases h : block.btype = some "text"
    · cases hp : block.text <;> simp [textBlockChunks, h, hp, ih, List.filterMap_cons]
    · simp [textBlockChunks, h, ih, List.filterMap_cons]

end Anthropic

/-- C9: the claim that extraction returns the exact concatenation of the
text-typed parts with nothing inserted between them is false for the
OpenAI extractor: two `output_text` parts `"a"` and `"b"` in one message
item extract to `"a\nb"`, not `"ab"`. -/
theorem extract_output_text_claim_false_on_separator :
    OpenAI.extract_output_text
        { output := some [⟨some "message",
            some [⟨some "output_text", some "a"⟩, ⟨some "output_text", some "b"⟩]⟩] } = "a\nb"
    ∧ ("a\nb" : String) ≠ "ab" := by
  exact ⟨by decide, by decide⟩

/-- C9 (amended): the Anthropic extractor returns the direct concatenation,
in document order, of the `text` fields of `text`-typed content blocks; the
OpenAI extractor (on a non-streaming payload with no top-level
`output_text` string) collects the `output_text`-typed parts of
`message`-typed output items in document order but joins them with a
newline separator, returning `""` when there are none. -/
theorem extract_output_text_concatenation_spec :
    (∀ payload : Anthropic.AnthropicPayload,
      Anthropic.extract_output_text payload =
        String.join ((payload.content.getD []).filterMap fun block =>
          if block.btype = some "text" then block.text else none))
    ∧ (∀ payload : OpenAI.OAIPayload, payload.stream ≠ some true →
        payload.output_text = none →
        OpenAI.extract_output_text payload =
          (if ((payload.output.getD []).flatMap fun item =>
                if item.itype = some "message" then
                  (item.content.getD []).filterMap fun part =>
                    if part.ptype = some "output_text" then part.text else none
                else []) = [] then ""
           else String.intercalate "\n" ((payload.output.getD []).flatMap fun item =>
                if item.itype = some "message" then
                  (item.content.getD []).filterMap fun part =>
                    if part.ptype = some "output_text" then part.text else none
                else []))) := by
  constructor
  · intro payload
    rw [Anthropic.extract_output_text, Anthropic.extract_text_blocks]
    cases hc : payload.content <;> simp [hc, Anthropic.textBlockChunks_eq_filterMap]
  · intro payload h1 h2
    rw [OpenAI.extract_output_text, if_neg (by simpa using h1), OpenAI.extractOutputTextCore]
    simp only [h2, OpenAI.outputChunks_eq_flatMap]

/-- Witness for C9's amended theorem at concrete payloads of both
providers. -/
theorem extract_output_text_concatenation_spec_witness :
    Anthropic.extract_output_text
        { content := some [⟨some "text", some "he", none, none, none⟩,
                           ⟨some "text", some "llo", none, none, none⟩] } = "hello"
    ∧ OpenAI.extract_output_text
        { output := some [⟨some "message",
            some [⟨some "output_text", some "x"⟩, ⟨some "output_text", some "y"⟩]⟩] } = "x\ny" := by
  constructor
  · have h := extract_output_text_concatenation_spec.1
      { content := some [⟨some "text", some "he", none, none, none⟩,
                         ⟨some "text", some "llo", none, none, none⟩] }
    exact h.trans (by decide)
  · have h := extract_output_text_concatenation_spec.2
      { output := some [⟨some "message",
          some [⟨some "output_text", some "x"⟩, ⟨some "output_text", some "y"⟩]⟩] }
      (by decide) rfl
    exact h.trans (by decide)

/-- C8: an SSE data field that is not the end-of-stream sentinel and does
not parse as JSON is fatal: the Anthropic and Grok stream parsers return
the `Failed to parse ... stream event` error carrying the offending raw
text verbatim, and the Anthropic event iterator hitting such a data group
aborts with that error, producing no events from the remainder of the
stream. -/
theorem malformed_sse_data_fatal :
    (∀ (jsonParse : String → Option (Parsed Anthropic.AEventData))
       (event_type : Option String) (data_lines : List String),
      String.intercalate "\n" data_lines ≠ "[DONE]" →
      jsonParse (String.intercalate "\n" data_lines) = none →
      Anthropic.parse_sse_event jsonParse event_type data_lines =
        .error ("Failed to parse Anthropic stream event: " ++
                String.intercalate "\n" data_lines))
    ∧ (∀ (α : Type) (jsonParse : String → Option (Parsed α)) (data : String),
      jsonParse data = none →
      Grok.parse_sse_data jsonParse data =
        .error ("Failed to parse Grok stream event: " ++ data))
    ∧ (∀ (jsonParse : String → Option (Parsed Anthropic.AEventData)) (rest : List String),
      jsonParse "\x7bnot json" = none →
      Anthropic.iter_sse_events jsonParse ("data: \x7bnot json" :: "" :: rest) =
        .error ("Failed to parse Anthropic stream event: " ++ "\x7bnot json")) := by
  refine ⟨fun jsonParse event_type data_lines h1 h2 => ?_,
          fun α jsonParse data h => ?_, fun jsonParse rest h => ?_⟩
  · simp only [Anthropic.parse_sse_event]
    rw [if_neg h1, h2]
  · simp only [Grok.parse_sse_data]
    rw [h]
  · have hb : strStartsWith "data: \x7bnot json" ":" = false := by decide
    have he : strStartsWith "data: \x7bnot json" "event:" = false := by decide
    have hd : strStartsWith "data: \x7bnot json" "data:" = true := by decide
    have hx : strTrimLeft (strDrop "data: \x7bnot json" "data:".length) = "\x7bnot json" := by
      decide
    have hi : String.intercalate "\n" ["\x7bnot json"] = "\x7bnot json" := rfl
    have hne : ("\x7bnot json" : String) ≠ "[DONE]" := by decide
    simp only [Anthropic.iter_sse_events, Anthropic.iterSseGo, hb, he, hd, hx,
      Anthropic.parse_sse_event, hi]
    simp [hi, hne, h]

/-- Witness for C8 at the spec's `"{not json"` data line, with a JSON
parser that rejects it. -/
theorem malformed_sse_data_fatal_witness :
    Anthropic.parse_sse_event (fun _ => none) none ["\x7bnot json"] =
        .error ("Failed to parse Anthropic stream event: " ++ "\x7bnot json")
    ∧ Grok.parse_sse_data (α := Anthropic.AEventData) (fun _ => none) "\x7bnot json" =
        .error ("Failed to parse Grok stream event: " ++ "\x7bnot json")
    ∧ Anthropic.iter_sse_events (fun _ => none) ["data: \x7bnot json", ""] =
        .error ("Failed to parse Anthropic stream event: " ++ "\x7bnot json") := by
  refine ⟨?_, ?_, ?_⟩
  · have h := malformed_sse_data_fatal.1 (fun _ => none) none ["\x7bnot json"]
      (by decide) rfl
    exact h.trans (congrArg Except.error (by decide))
  · exact malformed_sse_data_fatal.2.1 Anthropic.AEventData (fun _ => none) "\x7bnot json" rfl
  · exact malformed_sse_data_fatal.2.2 (fun _ => none) [] rfl

theorem strFoldl_append (l : List String) : ∀ s : String,
    List.foldl (fun r t => r ++ t) s l = s ++ List.foldl (fun r t => r ++ t) "" l := by
  induction l with
  | nil => intro s; simp
  | cons a rest ih =>
    intro s
    simp only [List.foldl_cons]
    rw [ih (s ++ a), ih ("" ++ a)]
    simp [String.append_assoc]

theorem strJoin_cons (s : String) (l : List String) :
    String.join (s :: l) = s ++ String.join l := by
  simp only [String.join, List.foldl_cons]
  rw [strFoldl_append l (_ ++ s)]
  simp

theorem pyGet_pySet_self {β : Type} (blocks : List (Int × β)) (k : Int) (v : β) :
    pyGet (pySet blocks k v) k = some v := by
  induction blocks with
  | nil => simp [pySet, pyGet]
  | cons p rest ih =>
    rcases p with ⟨k', v'⟩
    by_cases h : k' = k <;> simp [pySet, pyGet, h, ih]

theorem pyGet_pySet_ne {β : Type} (blocks : List (Int × β)) (k k' : Int) (v : β)
    (h : k' ≠ k) : pyGet (pySet blocks k v) k' = pyGet blocks k' := by
  have hne : ¬k = k' := fun he => h he.symm
  induction blocks with
  | nil => simp [pySet, pyGet, hne]
  | cons p rest ih =>
    rcases p with ⟨k'', v''⟩
    by_cases h2 : k'' = k
    · subst h2
      simp [pySet, pyGet, hne]
    · by_cases h3 : k'' = k' <;> simp [pySet, pyGet, h2, h3, h, ih]

theorem pyGet_eq_none_iff {β : Type} (blocks : List (Int × β)) (k : Int) :
    pyGet blocks k = none ↔ k ∉ blocks.map Prod.fst := by
  induction blocks with
  | nil => simp [pyGet]
  | cons p rest ih =>
    rcases p with ⟨k', v'⟩
    by_cases h : k' = k
    · simp [pyGet, h]
    · have h' : ¬k = k' := fun he => h he.symm
      simp [pyGet, h, h', ih]

theorem pySet_map_fst_of_mem {β : Type} (blocks : List (Int × β)) (k : Int) (v : β)
    (h : k ∈ blocks.map Prod.fst) :
    (pySet blocks k v).map Prod.fst = blocks.map Prod.fst := by
  induction blocks with
  | nil => simp at h
  | cons p rest ih =>
    rcases p with ⟨k', v'⟩
    by_cases h2 : k' = k
    · simp [pySet, h2]
    · have : k ∈ rest.map Prod.fst := by
        rcases List.mem_map.mp h with ⟨q, hq, he⟩
        rcases List.mem_cons.mp hq with hq1 | hq2
        · exact absurd (by rw [hq1] at he; exact he) h2
        · exact List.mem_map.mpr ⟨q, hq2, he⟩
      simp [pySet, h2, ih this]

theorem pySet_map_fst_of_notMem {β : Type} (blocks : List (Int × β)) (k : Int) (v : β)
    (h : k ∉ blocks.map Prod.fst) :
    (pySet blocks k v).map Prod.fst = blocks.map Prod.fst ++ [k] := by
  induction blocks with
  | nil => simp [pySet]
  | cons p rest ih =>
    rcases p with ⟨k', v'⟩
    have h1 : k' ≠ k := fun he => h (by simp [he])
    have h2 : k ∉ rest.map Prod.fst := fun he => h (by simp [he])
    simp [pySet, h1, ih h2]

theorem pyGet_append_single {β : Type} (blocks : List (Int × β)) (k k' : Int) (v : β) :
    pyGet (blocks ++ [(k, v)]) k' =
      (pyGet blocks k').or (if k = k' then some v else none) := by
  induction blocks with
  | nil => simp [pyGet]
  | cons p rest ih =>
    rcases p with ⟨k'', v''⟩
    by_cases h : k'' = k' <;> simp [pyGet, h, ih]

namespace Anthropic

theorem aDeltaOf_isSome_of_index (e : AEvent) (idx : Int)
    (h : aDeltaIndex e = some idx) : ∃ δ, aDeltaOf e = some δ := by
  rcases e with ⟨eev, _ | d⟩
  · simp [aDeltaIndex] at h
  · simp only [aDeltaIndex, aEventType] at h
    simp only [aDeltaOf, aEventType]
    by_cases het : eventTypeOf eev d.dtype = some "content_block_delta"
    · simp only [het, if_true] at h ⊢
      cases hdi : d.index <;> cases hdd : d.delta <;> simp_all
    · simp [het] at h

theorem aStartIndex_eq_none_of_delta (e : AEvent) (idx : Int)
    (h : aDeltaIndex e = some idx) : aStartIndex e = none := by
  rcases e with ⟨eev, _ | d⟩
  · simp [aStartIndex]
  · simp only [aDeltaIndex, aEventType] at h
    simp only [aStartIndex, aEventType]
    by_cases het : eventTypeOf eev d.dtype = some "content_block_delta"
    · simp [het]
    · simp [het] at h

theorem aStartIndex_isSome_of_block (e : AEvent) (block : AContentBlock)
    (h : aStartBlock e = some block) : ∃ idx, aStartIndex e = some idx := by
  rcases e with ⟨eev, _ | d⟩
  · simp [aStartBlock] at h
  · simp only [aStartBlock, aEventType] at h
    simp only [aStartIndex, aEventType]
    by_cases het : eventTypeOf eev d.dtype = some "content_block_start"
    · simp only [het, if_true] at h ⊢
      cases hdi : d.index <;> cases hdd : d.content_block <;> simp_all
    · simp [het] at h

theorem aDeltaIndex_eq_none_of_start (e : AEvent) (idx : Int)
    (h : aStartIndex e = some idx) : aDeltaIndex e = none := by
  rcases e with ⟨eev, _ | d⟩
  · simp [aDeltaIndex]
  · simp only [aStartIndex, aEventType] at h
    simp only [aDeltaIndex, aEventType]
    by_cases het : eventTypeOf eev d.dtype = some "content_block_start"
    · simp [het]
    · simp [het] at h

theorem addrIndex_of_delta (e : AEvent) (idx : Int) (h : aDeltaIndex e = some idx) :
    addrIndex e = some idx := by
  rw [addrIndex, aStartIndex_eq_none_of_delta e idx h, h, Option.or]

theorem addrIndex_of_start (e : AEvent) (idx : Int) (h : aStartIndex e = some idx) :
    addrIndex e = some idx := by
  rw [addrIndex, h, Option.or]

theorem reconStep_delta (st : ReconState) (e : AEvent) (idx : Int) (δ : ADelta)
    (hidx : aDeltaIndex e = some idx) (hδ : aDeltaOf e = some δ) :
    reconStep st e = { st with content_blocks :=
      (match pyGet st.content_blocks idx with
       | some block => pySet st.content_blocks idx (update_content_block block δ)
       | none => st.content_blocks ++
           [(idx, update_content_block { btype := δ.dtype } δ)]) } := by
  rcases e with ⟨eev, _ | d⟩
  · simp [aDeltaIndex] at hidx
  · simp only [aDeltaIndex, aEventType] at hidx
    simp only [aDeltaOf, aEventType] at hδ
    by_cases het : eventTypeOf eev d.dtype = some "content_block_delta"
    · simp only [het, if_true] at hidx hδ
      cases hdi : d.index with
      | none => rw [hdi] at hidx; simp at hidx
      | some i0 =>
        cases hdd : d.delta with
        | none => rw [hdi, hdd] at hidx; simp at hidx
        | some δ0 =>
          rw [hdi, hdd] at hidx hδ
          simp only [Option.some.injEq] at hidx hδ
          subst hidx
          subst hδ
          simp only [reconStep, het, hdi, hdd]
          simp
    · simp [het] at hidx

theorem reconStep_start (st : ReconState) (e : AEvent) (idx : Int) (block : AContentBlock)
    (hidx : aStartIndex e = some idx) (hblk : aStartBlock e = some block) :
    reconStep st e = { st with content_blocks := pySet st.content_blocks idx block } := by
  rcases e with ⟨eev, _ | d⟩
  · simp [aStartIndex] at hidx
  · simp only [aStartIndex, aEventType] at hidx
    simp only [aStartBlock, aEventType] at hblk
    by_cases het : eventTypeOf eev d.dtype = some "content_block_start"
    · simp only [het, if_true] at hidx hblk
      cases hdi : d.index with
      | none => rw [hdi] at hidx; simp at hidx
      | some i0 =>
        cases hdb : d.content_block with
        | none => rw [hdi, hdb] at hidx; simp at hidx
        | some b0 =>
          rw [hdi, hdb] at hidx hblk
          simp only [Option.some.injEq] at hidx hblk
          subst hidx
          subst hblk
          simp only [reconStep, het, hdi, hdb]
          simp
    · simp [het] at hidx

theorem update_text_getD (block : AContentBlock) (δ : ADelta) :
    (update_content_block block δ).text.getD "" =
      block.text.getD "" ++ (if δ.dtype = some "text_delta" then δ.text else none).getD "" := by
  unfold update_content_block
  by_cases h1 : δ.dtype = some "text_delta"
  · cases ht : δ.text <;> cases hb : block.text <;> simp [h1, ht, hb]
  · simp only [h1, if_false]
    by_cases h2 : δ.dtype = some "thinking_delta"
    · cases ht : δ.thinking <;> simp [h1, h2, ht]
    · by_cases h3 : δ.dtype = some "signature_delta"
      · cases hs : δ.signature <;> simp [h1, h2, h3, hs]
      · by_cases h4 : δ.dtype = some "input_json_delta"
        · cases hp : δ.pjson <;> simp [h1, h2, h3, h4, hp]
        · simp [h1, h2, h3, h4]

theorem update_thinking_getD (block : AContentBlock) (δ : ADelta) :
    (update_content_block block δ).thinking.getD "" =
      block.thinking.getD "" ++
        (if δ.dtype = some "thinking_delta" then δ.thinking else none).getD "" := by
  unfold update_content_block
  by_cases h2 : δ.dtype = some "thinking_delta"
  · have h1 : δ.dtype ≠ some "text_delta" := by rw [h2]; simp
    cases ht : δ.thinking <;> cases hb : block.thinking <;> simp [h1, h2, ht, hb]
  · by_cases h1 : δ.dtype = some "text_delta"
    · cases ht : δ.text <;> simp [h1, h2, ht]
    · simp only [h1, h2, if_false]
      by_cases h3 : δ.dtype = some "signature_delta"
      · cases hs : δ.signature <;> simp [h3, hs]
      · by_cases h4 : δ.dtype = some "input_json_delta"
        · cases hp : δ.pjson <;> simp [h3, h4, hp]
        · simp [h3, h4]

theorem noStaleStart_congr (l : List AEvent) : ∀ (s1 s2 : List Int),
    (∀ i, i ∈ s1 ↔ i ∈ s2) → noStaleStart s1 l = noStaleStart s2 l := by
  induction l with
  | nil => intro s1 s2 _; rfl
  | cons e rest ih =>
    intro s1 s2 h
    have h2 : ∀ i : Int, i ∈ s1 ++ (addrIndex e).toList ↔ i ∈ s2 ++ (addrIndex e).toList := by
      intro i; simp [h i]
    simp only [noStaleStart]
    cases hs : aStartIndex e with
    | none => simp [ih _ _ h2]
    | some i =>
      have hd : decide (i ∈ s1) = decide (i ∈ s2) := decide_eq_decide.mpr (h i)
      simp [hd, ih _ _ h2]

theorem join_textDeltasFor_cons (e : AEvent) (rest : List AEvent) (i : Int) :
    String.join (textDeltasFor (e :: rest) i) =
      (if aDeltaIndex e = some i then
        ((aDeltaOf e).bind fun δ =>
          if δ.dtype = some "text_delta" then δ.text else none).getD ""
       else "") ++ String.join (textDeltasFor rest i) := by
  simp only [textDeltasFor, List.filterMap_cons]
  by_cases h : aDeltaIndex e = some i
  · simp only [h, if_true]
    cases hδ : aDeltaOf e with
    | none => simp [hδ]
    | some δ =>
      cases hh : (if δ.dtype = some "text_delta" then δ.text else none) with
      | none => simp [hδ, hh]
      | some t => simp [hδ, hh, strJoin_cons, textDeltasFor]
  · simp [h, textDeltasFor]

theorem join_thinkingDeltasFor_cons (e : AEvent) (rest : List AEvent) (i : Int) :
    String.join (thinkingDeltasFor (e :: rest) i) =
      (if aDeltaIndex e = some i then
        ((aDeltaOf e).bind fun δ =>
          if δ.dtype = some "thinking_delta" then δ.thinking else none).getD ""
       else "") ++ String.join (thinkingDeltasFor rest i) := by
  simp only [thinkingDeltasFor, List.filterMap_cons]
  by_cases h : aDeltaIndex e = some i
  · simp only [h, if_true]
    cases hδ : aDeltaOf e with
    | none => simp [hδ]
    | some δ =>
      cases hh : (if δ.dtype = some "thinking_delta" then δ.thinking else none) with
      | none => simp [hδ, hh]
      | some t => simp [hδ, hh, strJoin_cons, thinkingDeltasFor]
  · simp [h, thinkingDeltasFor]

end Anthropic

namespace Anthropic

theorem blankish_getD (o : Option String) (h : blankish o = true) : o.getD "" = "" := by
  cases o with
  | none => rfl
  | some s => simpa [blankish] using h

theorem reconFold_invariant (events : List AEvent) :
    ∀ st : ReconState,
      (∀ e ∈ events, (isValidDelta e || isCleanStart e) = true) →
      noStaleStart (st.content_blocks.map Prod.fst) events = true →
      (st.content_blocks.map Prod.fst).Nodup →
      (events.foldl reconStep st).response_payload = st.response_payload
      ∧ ((events.foldl reconStep st).content_blocks.map Prod.fst).Nodup
      ∧ (∀ i : Int, i ∈ (events.foldl reconStep st).content_blocks.map Prod.fst ↔
          i ∈ st.content_blocks.map Prod.fst ∨ i ∈ addressedIndices events)
      ∧ (∀ i : Int, textAt (events.foldl reconStep st).content_blocks i =
          textAt st.content_blocks i ++ String.join (textDeltasFor events i))
      ∧ (∀ i : Int, thinkingAt (events.foldl reconStep st).content_blocks i =
          thinkingAt st.content_blocks i ++ String.join (thinkingDeltasFor events i)) := by
  induction events with
  | nil =>
    intro st _ _ hnd
    refine ⟨rfl, hnd, ?_, ?_, ?_⟩ <;> intro i <;>
      simp [addressedIndices, textDeltasFor, thinkingDeltasFor, String.join]
  | cons e rest ih =>
    intro st hwf hstale hnd
    have hwf_e := hwf e (List.mem_cons_self ..)
    have hwf_r : ∀ x ∈ rest, (isValidDelta x || isCleanStart x) = true :=
      fun x hx => hwf x (List.mem_cons_of_mem _ hx)
    rcases Bool.or_eq_true_iff.mp hwf_e with hdel | hstart
    · -- a valid content_block_delta event
      obtain ⟨idx, hidx⟩ := Option.isSome_iff_exists.mp
        (by simpa [isValidDelta] using hdel)
      obtain ⟨δ, hδ⟩ := aDeltaOf_isSome_of_index e idx hidx
      have hstep := reconStep_delta st e idx δ hidx hδ
      have hsi := aStartIndex_eq_none_of_delta e idx hidx
      have haddr := addrIndex_of_delta e idx hidx
      have haddrs : addressedIndices (e :: rest) = idx :: addressedIndices rest := by
        simp [addressedIndices, List.filterMap_cons, haddr]
      have hstale1 : noStaleStart (st.content_blocks.map Prod.fst ++ [idx]) rest = true := by
        simp only [noStaleStart, hsi, haddr] at hstale
        simpa using hstale
      by_cases hmem : idx ∈ st.content_blocks.map Prod.fst
      · obtain ⟨block, hpgb⟩ : ∃ block, pyGet st.content_blocks idx = some block := by
          rcases ho : pyGet st.content_blocks idx with _ | b
          · exact absurd ((pyGet_eq_none_iff _ _).mp ho) (by simpa using hmem)
          · exact ⟨b, rfl⟩
        have hblocks1 : (reconStep st e).content_blocks =
            pySet st.content_blocks idx (update_content_block block δ) := by
          rw [hstep]; simp [hpgb]
        have hkeys1 : (reconStep st e).content_blocks.map Prod.fst =
            st.content_blocks.map Prod.fst := by
          rw [hblocks1, pySet_map_fst_of_mem _ _ _ hmem]
        have hstale2 : noStaleStart ((reconStep st e).content_blocks.map Prod.fst)
            rest = true := by
          rw [hkeys1, noStaleStart_congr rest _
            (st.content_blocks.map Prod.fst ++ [idx]) (fun i => ?_)]
          · exact hstale1
          · constructor
            · intro hh; exact List.mem_append.mpr (Or.inl hh)
            · intro hh
              rcases List.mem_append.mp hh with hh | hh
              · exact hh
              · simp at hh; subst hh; exact hmem
        obtain ⟨hrp, hnd', hmem', htext', hthink'⟩ :=
          ih (reconStep st e) hwf_r hstale2 (by rw [hkeys1]; exact hnd)
        have hrp1 : (reconStep st e).response_payload = st.response_payload := by
          rw [hstep]
        refine ⟨?_, ?_, fun i => ?_, fun i => ?_, fun i => ?_⟩
        · simp only [List.foldl_cons]; rw [hrp, hrp1]
        · simpa only [List.foldl_cons] using hnd'
        · simp only [List.foldl_cons]
          rw [hmem' i, hkeys1, haddrs]
          by_cases hi : i = idx
          · subst hi; simp [hmem]
          · simp [List.mem_cons, hi]
        · simp only [List.foldl_cons]
          rw [htext' i, join_textDeltasFor_cons]
          have hta : textAt (reconStep st e).content_blocks i =
              textAt st.content_blocks i ++
                (if aDeltaIndex e = some i then
                  ((aDeltaOf e).bind fun δ =>
                    if δ.dtype = some "text_delta" then δ.text else none).getD ""
                 else "") := by
            by_cases hi : i = idx
            · subst hi
              rw [hblocks1]
              simp [textAt, pyGet_pySet_self, hpgb, update_text_getD, hidx, hδ]
            · rw [hblocks1]
              have hpne := pyGet_pySet_ne st.content_blocks idx i
                (update_content_block block δ) hi
              simp [textAt, hpne, hidx, Ne.symm hi]
          rw [hta, String.append_assoc]
        · simp only [List.foldl_cons]
          rw [hthink' i, join_thinkingDeltasFor_cons]
          have hta : thinkingAt (reconStep st e).content_blocks i =
              thinkingAt st.content_blocks i ++
                (if aDeltaIndex e = some i then
                  ((aDeltaOf e).bind fun δ =>
                    if δ.dtype = some "thinking_delta" then δ.thinking else none).getD ""
                 else "") := by
            by_cases hi : i = idx
            · subst hi
              rw [hblocks1]
              simp [thinkingAt, pyGet_pySet_self, hpgb, update_thinking_getD, hidx, hδ]
            · rw [hblocks1]
              have hpne := pyGet_pySet_ne st.content_blocks idx i
                (update_content_block block δ) hi
              simp [thinkingAt, hpne, hidx, Ne.symm hi]
          rw [hta, String.append_assoc]
      · have hpgn : pyGet st.content_blocks idx = none := (pyGet_eq_none_iff _ _).mpr hmem
        have hblocks1 : (reconStep st e).content_blocks =
            st.content_blocks ++ [(idx, update_content_block { btype := δ.dtype } δ)] := by
          rw [hstep]; simp [hpgn]
        have hkeys1 : (reconStep st e).content_blocks.map Prod.fst =
            st.content_blocks.map Prod.fst ++ [idx] := by
          rw [hblocks1]; simp
        have hstale2 : noStaleStart ((reconStep st e).content_blocks.map Prod.fst)
            rest = true := by
          rw [hkeys1]; exact hstale1
        have hnd1 : ((reconStep st e).content_blocks.map Prod.fst).Nodup := by
          rw [hkeys1]; simp [List.nodup_append, hnd, hmem]
        obtain ⟨hrp, hnd', hmem', htext', hthink'⟩ :=
          ih (reconStep st e) hwf_r hstale2 hnd1
        have hrp1 : (reconStep st e).response_payload = st.response_payload := by
          rw [hstep]
        refine ⟨?_, ?_, fun i => ?_, fun i => ?_, fun i => ?_⟩
        · simp only [List.foldl_cons]; rw [hrp, hrp1]
        · simpa only [List.foldl_cons] using hnd'
        · simp only [List.foldl_cons]
          rw [hmem' i, hkeys1, haddrs]
          simp [List.mem_append, List.mem_cons, or_assoc, or_comm, or_left_comm]
        · simp only [List.foldl_cons]
          rw [htext' i, join_textDeltasFor_cons]
          have hta : textAt (reconStep st e).content_blocks i =
              textAt st.content_blocks i ++
                (if aDeltaIndex e = some i then
                  ((aDeltaOf e).bind fun δ =>
                    if δ.dtype = some "text_delta" then δ.text else none).getD ""
                 else "") := by
            by_cases hi : i = idx
            · subst hi
              rw [hblocks1]
              have hap := pyGet_append_single st.content_blocks i i
                (update_content_block { btype := δ.dtype } δ)
              simp [textAt, hap, hpgn, update_text_getD, hidx, hδ]
            · rw [hblocks1]
              have hap := pyGet_append_single st.content_blocks idx i
                (update_content_block { btype := δ.dtype } δ)
              simp [textAt, hap, hpgn, hidx, Ne.symm hi]
          rw [hta, String.append_assoc]
        · simp only [List.foldl_cons]
          rw [hthink' i, join_thinkingDeltasFor_cons]
          have hta : thinkingAt (reconStep st e).content_blocks i =
              thinkingAt st.content_blocks i ++
                (if aDeltaIndex e = some i then
                  ((aDeltaOf e).bind fun δ =>
                    if δ.dtype = some "thinking_delta" then δ.thinking else none).getD ""
                 else "") := by
            by_cases hi : i = idx
            · subst hi
              rw [hblocks1]
              have hap := pyGet_append_single st.content_blocks i i
                (update_content_block { btype := δ.dtype } δ)
              simp [thinkingAt, hap, hpgn, update_thinking_getD, hidx, hδ]
            · rw [hblocks1]
              have hap := pyGet_append_single st.content_blocks idx i
                (update_content_block { btype := δ.dtype } δ)
              simp [thinkingAt, hap, hpgn, hidx, Ne.symm hi]
          rw [hta, String.append_assoc]
    · -- a clean content_block_start event
      obtain ⟨block, hblk, hclean⟩ :
          ∃ block, aStartBlock e = some block ∧
            (blankish block.text && blankish block.thinking) = true := by
        rw [isCleanStart] at hstart
        cases hb : aStartBlock e with
        | none => rw [hb] at hstart; simp at hstart
        | some b => exact ⟨b, rfl, by rwa [hb] at hstart⟩
      obtain ⟨idx, hidx⟩ := aStartIndex_isSome_of_block e block hblk
      have hstep := reconStep_start st e idx block hidx hblk
      have hdix := aDeltaIndex_eq_none_of_start e idx hidx
      have haddr := addrIndex_of_start e idx hidx
      have haddrs : addressedIndices (e :: rest) = idx :: addressedIndices rest := by
        simp [addressedIndices, List.filterMap_cons, haddr]
      have hmem : idx ∉ st.content_blocks.map Prod.fst := by
        simp only [noStaleStart, hidx] at hstale
        have := (Bool.and_eq_true_iff.mp hstale).1
        simpa using this
      have hstale1 : noStaleStart (st.content_blocks.map Prod.fst ++ [idx]) rest = true := by
        simp only [noStaleStart, hidx, haddr] at hstale
        have := (Bool.and_eq_true_iff.mp hstale).2
        simpa using this
      have hpgn : pyGet st.content_blocks idx = none := (pyGet_eq_none_iff _ _).mpr hmem
      have hblocks1 : (reconStep st e).content_blocks = pySet st.content_blocks idx block := by
        rw [hstep]
      have hkeys1 : (reconStep st e).content_blocks.map Prod.fst =
          st.content_blocks.map Prod.fst ++ [idx] := by
        rw [hblocks1, pySet_map_fst_of_notMem _ _ _ hmem]
      have hstale2 : noStaleStart ((reconStep st e).content_blocks.map Prod.fst)
          rest = true := by
        rw [hkeys1]; exact hstale1
      have hnd1 : ((reconStep st e).content_blocks.map Prod.fst).Nodup := by
        rw [hkeys1]; simp [List.nodup_append, hnd, hmem]
      obtain ⟨hrp, hnd', hmem', htext', hthink'⟩ :=
        ih (reconStep st e) hwf_r hstale2 hnd1
      have hrp1 : (reconStep st e).response_payload = st.response_payload := by
        rw [hstep]
      refine ⟨?_, ?_, fun i => ?_, fun i => ?_, fun i => ?_⟩
      · simp only [List.foldl_cons]; rw [hrp, hrp1]
      · simpa only [List.foldl_cons] using hnd'
      · simp only [List.foldl_cons]
        rw [hmem' i, hkeys1, haddrs]
        simp [List.mem_append, List.mem_cons, or_assoc, or_comm, or_left_comm]
      · simp only [List.foldl_cons]
        rw [htext' i, join_textDeltasFor_cons]
        have hta : textAt (reconStep st e).content_blocks i = textAt st.content_blocks i ++
            (if aDeltaIndex e = some i then
              ((aDeltaOf e).bind fun δ =>
                if δ.dtype = some "text_delta" then δ.text else none).getD ""
             else "") := by
          by_cases hi : i = idx
          · subst hi
            rw [hblocks1]
            have hbt := blankish_getD block.text (Bool.and_eq_true_iff.mp hclean).1
            simp [textAt, pyGet_pySet_self, hpgn, hdix, hbt]
          · rw [hblocks1]
            have hpne := pyGet_pySet_ne st.content_blocks idx i block hi
            simp [textAt, hpne, hdix]
        rw [hta, String.append_assoc]
      · simp only [List.foldl_cons]
        rw [hthink' i, join_thinkingDeltasFor_cons]
        have hta : thinkingAt (reconStep st e).content_blocks i =
            thinkingAt st.content_blocks i ++
            (if aDeltaIndex e = some i then
              ((aDeltaOf e).bind fun δ =>
                if δ.dtype = some "thinking_delta" then δ.thinking else none).getD ""
             else "") := by
          by_cases hi : i = idx
          · subst hi
            rw [hblocks1]
            have hbt := blankish_getD block.thinking (Bool.and_eq_true_iff.mp hclean).2
            simp [thinkingAt, pyGet_pySet_self, hpgn, hdix, hbt]
          · rw [hblocks1]
            have hpne := pyGet_pySet_ne st.content_blocks idx i block hi
            simp [thinkingAt, hpne, hdix]
        rw [hta, String.append_assoc]

end Anthropic

/-- C1: for a well-formed Anthropic stream — every event is a valid
`content_block_delta` or a `content_block_start` whose block arrives
empty, and no start addresses an index that was already addressed — the
reconstructed payload's `content` array contains exactly one block per
addressed index, in strictly ascending index order regardless of the
order in which indices first appeared, and each block's text (and
thinking) is the concatenation, in arrival order, of the text (thinking)
deltas carrying that block's index — appended, never replaced or
reordered. -/
theorem anthropic_reconstruct_orders_and_concatenates (events : List Anthropic.AEvent)
    (hwf : ∀ e ∈ events,
      (Anthropic.isValidDelta e || Anthropic.isCleanStart e) = true)
    (hstale : Anthropic.noStaleStart [] events = true)
    (hne : events ≠ []) :
    ∃ f : Int → Anthropic.AContentBlock,
      (Anthropic.reconstruct_stream_payload events).content =
        some ((Anthropic.sortedAddressedIndices events).map f)
      ∧ (Anthropic.sortedAddressedIndices events).Sorted (· < ·)
      ∧ (∀ i : Int, i ∈ Anthropic.sortedAddressedIndices events ↔
          i ∈ Anthropic.addressedIndices events)
      ∧ ∀ i ∈ Anthropic.sortedAddressedIndices events,
          (f i).text.getD "" = String.join (Anthropic.textDeltasFor events i)
          ∧ (f i).thinking.getD "" = String.join (Anthropic.thinkingDeltasFor events i) := by
  obtain ⟨hrp, hnd, hmem, htext, hthink⟩ :=
    Anthropic.reconFold_invariant events {} hwf hstale (by simp)
  set st := events.foldl Anthropic.reconStep ({} : Anthropic.ReconState) with hst
  have hkeysmem : ∀ i, i ∈ st.content_blocks.map Prod.fst ↔
      i ∈ Anthropic.addressedIndices events := by
    intro i
    rw [hmem i]
    simp
  have hbne : st.content_blocks ≠ [] := by
    rcases hev : events with _ | ⟨e, rest⟩
    · exact absurd hev hne
    · have hwf_e : (Anthropic.isValidDelta e || Anthropic.isCleanStart e) = true :=
        hwf e (by rw [hev]; exact List.mem_cons_self ..)
      have haddr : ∃ idx, Anthropic.addrIndex e = some idx := by
        rcases Bool.or_eq_true_iff.mp hwf_e with hdel | hstart
        · obtain ⟨idx, hidx⟩ := Option.isSome_iff_exists.mp
            (by simpa [Anthropic.isValidDelta] using hdel)
          exact ⟨idx, Anthropic.addrIndex_of_delta e idx hidx⟩
        · obtain ⟨block, hblk⟩ : ∃ block, Anthropic.aStartBlock e = some block := by
            rw [Anthropic.isCleanStart] at hstart
            cases hb : Anthropic.aStartBlock e with
            | none => rw [hb] at hstart; simp at hstart
            | some b => exact ⟨b, rfl⟩
          obtain ⟨idx, hidx⟩ := Anthropic.aStartIndex_isSome_of_block e block hblk
          exact ⟨idx, Anthropic.addrIndex_of_start e idx hidx⟩
      obtain ⟨idx, hadd⟩ := haddr
      have hin : idx ∈ st.content_blocks.map Prod.fst := by
        rw [hkeysmem idx, hev]
        simp [Anthropic.addressedIndices, List.filterMap_cons, hadd]
      intro hempty
      rw [hempty] at hin
      simp at hin
  have hperm : List.Perm (Anthropic.sortedBlockIndices st.content_blocks)
      (Anthropic.sortedAddressedIndices events) := by
    refine (List.perm_ext_iff_of_nodup ?_ ?_).mpr ?_
    · exact (List.perm_insertionSort _ _).nodup_iff.mpr hnd
    · exact (List.perm_insertionSort _ _).nodup_iff.mpr (List.nodup_dedup _)
    · intro a
      rw [Anthropic.sortedBlockIndices, Anthropic.sortedAddressedIndices,
        (List.perm_insertionSort _ _).mem_iff, (List.perm_insertionSort _ _).mem_iff,
        List.mem_dedup]
      exact hkeysmem a
  have hsortkeys : Anthropic.sortedBlockIndices st.content_blocks =
      Anthropic.sortedAddressedIndices events :=
    List.eq_of_perm_of_sorted hperm (List.sorted_insertionSort _ _)
      (List.sorted_insertionSort _ _)
  have hfin : (Anthropic.reconstruct_stream_payload events).content =
      some ((Anthropic.sortedAddressedIndices events).map
        (fun i => (pyGet st.content_blocks i).getD {})) := by
    simp only [Anthropic.reconstruct_stream_payload, ← hst]
    rw [if_neg hbne, hsortkeys]
  refine ⟨fun i => (pyGet st.content_blocks i).getD {}, hfin, ?_, ?_, ?_⟩
  · have hs := List.sorted_insertionSort (α := Int) (· ≤ ·)
      (Anthropic.addressedIndices events).dedup
    have hn : (Anthropic.sortedAddressedIndices events).Nodup :=
      (List.perm_insertionSort _ _).nodup_iff.mpr (List.nodup_dedup _)
    exact ((hs.and hn).imp fun h => lt_of_le_of_ne h.1 h.2)
  · intro i
    rw [Anthropic.sortedAddressedIndices, (List.perm_insertionSort _ _).mem_iff,
      List.mem_dedup]
  · intro i _
    have h1 := htext i
    have h2 := hthink i
    simp only [← hst] at h1 h2
    have hz1 : Anthropic.textAt ({} : Anthropic.ReconState).content_blocks i = "" := by
      simp [Anthropic.textAt, pyGet]
    have hz2 : Anthropic.thinkingAt ({} : Anthropic.ReconState).content_blocks i = "" := by
      simp [Anthropic.thinkingAt, pyGet]
    rw [hz1] at h1
    rw [hz2] at h2
    have he1 : ((pyGet st.content_blocks i).getD {}).text.getD "" =
        Anthropic.textAt st.content_blocks i := by
      cases hp : pyGet st.content_blocks i <;> simp [Anthropic.textAt, hp]
    have he2 : ((pyGet st.content_blocks i).getD {}).thinking.getD "" =
        Anthropic.thinkingAt st.content_blocks i := by
      cases hp : pyGet st.content_blocks i <;> simp [Anthropic.thinkingAt, hp]
    constructor
    · rw [he1, h1]; simp
    · rw [he2, h2]; simp

/-- Witness for C1 at the spec's example stream (index 1 = `"second"`
before index 0 = `"first"`): the theorem applies, and the reconstructed
content array is `["first", "second"]` ordered by index. -/
theorem anthropic_reconstruct_orders_and_concatenates_witness :
    (∃ f : Int → Anthropic.AContentBlock,
      (Anthropic.reconstruct_stream_payload Anthropic.c1ExampleEvents).content =
        some ((Anthropic.sortedAddressedIndices Anthropic.c1ExampleEvents).map f)
      ∧ (Anthropic.sortedAddressedIndices Anthropic.c1ExampleEvents).Sorted (· < ·)
      ∧ (∀ i : Int, i ∈ Anthropic.sortedAddressedIndices Anthropic.c1ExampleEvents ↔
          i ∈ Anthropic.addressedIndices Anthropic.c1ExampleEvents)
      ∧ ∀ i ∈ Anthropic.sortedAddressedIndices Anthropic.c1ExampleEvents,
          (f i).text.getD "" =
            String.join (Anthropic.textDeltasFor Anthropic.c1ExampleEvents i)
          ∧ (f i).thinking.getD "" =
            String.join (Anthropic.thinkingDeltasFor Anthropic.c1ExampleEvents i))
    ∧ (Anthropic.reconstruct_stream_payload Anthropic.c1ExampleEvents).content =
        some [{ btype := some "text_delta", text := some "first" },
              { btype := some "text_delta", text := some "second" }] := by
  constructor
  · exact anthropic_reconstruct_orders_and_concatenates Anthropic.c1ExampleEvents
      (by decide) (by decide) (by decide)
  · decide
